import Mathlib

/-!
Shallow embedding of `src/unnamed/part_000` (a Google Apps Script program that
copies a monthly KPT retrospective page from Scrapbox into fixed cells of a
monthly-report Google Spreadsheet).

Modelling conventions:
* JavaScript strings are Lean `String`s; the string methods the source uses
  (`split`, `join`, `endsWith`, `startsWith`, `substring(1)`, `padStart`,
  `toLowerCase`, number `toString`) are re-implemented below by structural
  recursion on the character list, so that every definition evaluates inside
  the kernel.
* Thrown JavaScript errors become `Except RunError`; the structured payload
  passed to `JSON.stringify` is carried in the corresponding `RunError`
  constructor.
* The external services (UrlFetchApp, DriveApp, SpreadsheetApp) are supplied
  as function-valued fields of an `Env` record; folders are finite trees.
* `Range.setValue` side effects are modelled as a write-event log threaded
  through `overwriteKPTContents` and `main`.
-/

/-- Model of a JavaScript `Date`: only the two accessors the source calls.
`monthIndex` is the zero-based month index that `Date.prototype.getMonth`
returns (0 = January, 11 = December). -/
structure JSDate where
  fullYear : Nat
  monthIndex : Nat
deriving DecidableEq

/-- Model of `Date.prototype.getFullYear`. -/
def JSDate.getFullYear (d : JSDate) : Nat := d.fullYear

/-- Model of `Date.prototype.getMonth`: the zero-based month index. -/
def JSDate.getMonth (d : JSDate) : Nat := d.monthIndex

/-- Decimal digit character for `d < 10`. -/
def digitChar (d : Nat) : Char := Char.ofNat (48 + d)

/-- Fuel-driven accumulator loop producing the decimal digits of `n`. -/
def natToStringCore : Nat → Nat → List Char → List Char
  | 0, _, acc => acc
  | fuel + 1, n, acc =>
    let acc' := digitChar (n % 10) :: acc
    if n < 10 then acc' else natToStringCore fuel (n / 10) acc'

/-- Model of JavaScript `Number.prototype.toString` (base 10) restricted to
the natural numbers this program prints (years and month indices). -/
def natToString (n : Nat) : String := String.mk (natToStringCore (n + 1) n [])

/-- Model of `String.prototype.padStart(targetLength, padChar)`. -/
def padStart (s : String) (targetLength : Nat) (padChar : Char) : String :=
  String.mk (List.replicate (targetLength - s.data.length) padChar ++ s.data)

/-- The path separator constant `SEPARATOR = '/'` of `joinPath`. -/
def SEPARATOR : String := "/"

/-- Whether the last character of `l` is `c`; models
`String.prototype.endsWith` for a one-character argument. -/
def lastCharIs : List Char → Char → Bool
  | [], _ => false
  | [x], c => x == c
  | _ :: y :: rest, c => lastCharIs (y :: rest) c

/-- Whether the first character of `l` is `c`; models
`String.prototype.startsWith` for a one-character argument. -/
def headCharIs : List Char → Char → Bool
  | [], _ => false
  | x :: _, c => x == c

/-- Model of `String.prototype.substring(1)`: drop the first character. -/
def jsSubstring1 (s : String) : String := String.mk (s.data.drop 1)

/-- The `switch` discriminant of `joinPath`:
`(lhs.endsWith(SEPARATOR) ? 1 : 0) + (rhs.startsWith(SEPARATOR) ? 2 : 0)`. -/
def joinDiscriminant (lhs rhs : String) : Nat :=
  (if lastCharIs lhs.data '/' then 1 else 0) +
  (if headCharIs rhs.data '/' then 2 else 0)

/-- Model of `joinPath` (src/unnamed/part_000 lines 34-49).  The `default`
branch of the `switch`, which throws `Error('Unreachable')`, is modelled as
`none`. -/
def joinPath (lhs rhs : String) : Option String :=
  match joinDiscriminant lhs rhs with
  | 0 => some (lhs ++ SEPARATOR ++ rhs)
  | 1 => some (lhs ++ rhs)
  | 2 => some (lhs ++ rhs)
  | 3 => some (lhs ++ jsSubstring1 rhs)
  | _ => none

/-- Model of `joinPaths = paths => paths.reduce(joinPath)`
(src/unnamed/part_000 line 51).  JavaScript `Array.prototype.reduce` with no
initial value throws on an empty array (modelled as `none`), returns the sole
element unchanged on a one-element array, and otherwise folds left-to-right;
a throw inside the callback (the unreachable branch) propagates. -/
def joinPaths (paths : List String) : Option String :=
  match paths with
  | [] => none
  | p :: ps => List.foldlM joinPath p ps

/-- Whether `pre` is a leading segment of `l` (character-wise). -/
def startsWithList : List Char → List Char → Bool
  | [], _ => true
  | _ :: _, [] => false
  | p :: ps, c :: cs => p == c && startsWithList ps cs

/-- Fuel-driven splitter on a non-empty separator, scanning left to right and
taking non-overlapping separator occurrences, exactly like
`String.prototype.split` with a string separator. -/
def splitOnFuel (sep : List Char) : Nat → List Char → List Char → List (List Char)
  | 0, _, acc => [acc.reverse]
  | _ + 1, [], acc => [acc.reverse]
  | fuel + 1, c :: rest, acc =>
    if startsWithList sep (c :: rest) then
      acc.reverse :: splitOnFuel sep fuel ((c :: rest).drop sep.length) []
    else
      splitOnFuel sep fuel rest (c :: acc)

/-- Model of `String.prototype.split(sep)` for a non-empty string separator
(the source only splits on `'\n\n'` and `'\n'`). -/
def jsSplit (s sep : String) : List String :=
  match sep.data with
  | [] => [s]
  | _ :: _ => (splitOnFuel sep.data (s.data.length + 1) s.data []).map String.mk

/-- Model of `Array.prototype.join(sep)` on an array of strings. -/
def jsJoin (sep : String) : List String → String
  | [] => ""
  | [x] => x
  | x :: y :: rest => x ++ sep ++ jsJoin sep (y :: rest)

/-- Model of `String.prototype.toLowerCase` (character-wise ASCII lowering;
the recognized section labels are ASCII). -/
def jsToLower (s : String) : String := String.mk (s.data.map Char.toLower)

/-- Whether `c` is matched by `.` in a JavaScript regular expression without
the `s` flag: any character except a line terminator. -/
def isDotChar (c : Char) : Bool :=
  !(c == '\n' || c == '\r' || c == '\u2028' || c == '\u2029')

/-- All lengths `j` at which a greedy `(.+)` started at the head of `r` could
stop so that `]]` follows: `1 ≤ j`, the first `j` characters are `.`-matchable,
and `]]` stands at offset `j`. -/
def closeIndexCandidates (r : List Char) : List Nat :=
  (List.range (r.length + 1)).filter fun j =>
    decide (1 ≤ j) && (r.take j).all isDotChar &&
      startsWithList [']', ']'] (r.drop j)

/-- Greedy matching of `(.+)]]` at the head of `r`: the capture stops at the
largest viable length (a greedy `.+` backtracks from the right). -/
def greedyCapture (r : List Char) : Option (List Char) :=
  match (closeIndexCandidates r).getLast? with
  | some j => some (r.take j)
  | none => none

/-- Fuel-driven scan for the leftmost match of `\[\[(.+)\]\]`, returning the
first capture group: at each start position, if `[[` stands there and a greedy
`(.+)]]` completes, the capture is returned, otherwise the start advances by
one character. -/
def bracketCaptureFuel : Nat → List Char → Option (List Char)
  | 0, _ => none
  | _ + 1, [] => none
  | fuel + 1, c :: rest =>
    if c == '[' && startsWithList ['['] rest then
      match greedyCapture (rest.drop 1) with
      | some cap => some cap
      | none => bracketCaptureFuel fuel rest
    else
      bracketCaptureFuel fuel rest

/-- First capture group of `line.match(/\[\[(.+)\]\]/)`, if the line matches. -/
def bracketCapture (l : List Char) : Option (List Char) :=
  bracketCaptureFuel l.length l

/-- Model of `kind$.match(/\[\[(.+)\]\]/)?.[1]?.toLowerCase()`. -/
def matchSectionKind (line : String) : Option String :=
  match bracketCapture line.data with
  | some cap => some (jsToLower (String.mk cap))
  | none => none

/-- The recognized section kinds, in source order
(`kptContentsKinds`, src/unnamed/part_000 lines 56-61). -/
def kptContentsKinds : List String := ["try", "problem", "keep", "other"]

/-- The `KPTContents` record: one string field per recognized kind.  The
source field `try` is spelled `try_` here because `try` is reserved in Lean. -/
structure KPTContents where
  try_ : String
  problem : String
  keep : String
  other : String
deriving DecidableEq

/-- Model of `emptyKPTContents = Object.fromEntries(kptContentsKinds.map(kind
=> [kind, '']))`: every field is the empty string. -/
def emptyKPTContents : KPTContents := ⟨"", "", "", ""⟩

/-- Dynamic field read `kpt[kind]` for a kind string. -/
def KPTContents.get (kpt : KPTContents) (kind : String) : String :=
  if kind = "try" then kpt.try_
  else if kind = "problem" then kpt.problem
  else if kind = "keep" then kpt.keep
  else if kind = "other" then kpt.other
  else ""

/-- Model of the computed-key record update `{ ...kpt, [kind]: v }` as used at
the call site, where `kind` has been checked to be a recognized kind. -/
def KPTContents.set (kpt : KPTContents) (kind v : String) : KPTContents :=
  if kind = "try" then { kpt with try_ := v }
  else if kind = "problem" then { kpt with problem := v }
  else if kind = "keep" then { kpt with keep := v }
  else if kind = "other" then { kpt with other := v }
  else kpt

/-- One step of the reducer inside `parseAsKPTContents`
(src/unnamed/part_000 lines 72-81): split the chunk into label line and body
lines, extract and lowercase the bracketed kind, skip the chunk unless the
kind is recognized (JavaScript `!kind` also rejects an empty capture), and
otherwise overwrite that kind's field with the rejoined body lines. -/
def parseChunk (kpt : KPTContents) (chunk : String) : KPTContents :=
  match jsSplit chunk "\n" with
  | [] => kpt
  | kindLine :: contents =>
    match matchSectionKind kindLine with
    | none => kpt
    | some kind =>
      if kind = "" then kpt
      else if kptContentsKinds.contains kind then
        kpt.set kind (jsJoin "\n" contents)
      else kpt

/-- Model of `parseAsKPTContents` (src/unnamed/part_000 lines 69-82): split on
blank lines, drop the title chunk, and fold the chunk reducer over the rest
starting from `emptyKPTContents`. -/
def parseAsKPTContents (contents : String) : KPTContents :=
  match jsSplit contents "\n\n" with
  | [] => emptyKPTContents
  | _title :: chunks => chunks.foldl parseChunk emptyKPTContents

/-- The blank-line-delimited chunks after the title, as seen by the parser. -/
def chunksOf (contents : String) : List String := (jsSplit contents "\n\n").drop 1

/-- The recognized kind that a chunk would set, if any: `some k` exactly when
the chunk's first line carries a bracketed label whose lowercasing is a
non-empty recognized kind `k`. -/
def chunkKind (chunk : String) : Option String :=
  match jsSplit chunk "\n" with
  | [] => none
  | kindLine :: _ =>
    match matchSectionKind kindLine with
    | none => none
    | some kind =>
      if kind = "" then none
      else if kptContentsKinds.contains kind then some kind
      else none

/-- The body a chunk contributes: its lines after the label line, rejoined
with single newlines. -/
def chunkBody (chunk : String) : String :=
  jsJoin "\n" ((jsSplit chunk "\n").drop 1)

/-- Model of a Google Drive file handle: display name and id. -/
structure GFile where
  name : String
  id : String
deriving DecidableEq

/-- Model of a Google Drive folder: name, child folders in listing order, and
files in listing order. -/
inductive GFolder where
  | node : String → List GFolder → List GFile → GFolder

/-- Model of `Folder.getName`. -/
def GFolder.getName : GFolder → String
  | node n _ _ => n

/-- Model of `[...iterify(folder.getFolders())]`: the child folders in
listing order. -/
def GFolder.getFolders : GFolder → List GFolder
  | node _ folders _ => folders

/-- The files directly inside a folder, in listing order. -/
def GFolder.getFiles : GFolder → List GFile
  | node _ _ files => files

/-- Model of `[...iterify(folder.getFilesByName(name))]`: the files whose name
equals `name` exactly, in listing order. -/
def GFolder.getFilesByName (folder : GFolder) (name : String) : List GFile :=
  folder.getFiles.filter fun f => f.name == name

/-- The thrown errors of the program, carrying the structured payloads the
source passes to `JSON.stringify` (or the fixed message, for the unreachable
`joinPath` branch). -/
inductive RunError where
  | unreachableJoin : RunError
  | fetchError (headers : List (String × String)) (contents : String)
      (responseCode : Nat) : RunError
  | folderNotFound (pathnames : List String) (rootFolderId : String) : RunError
  | fileNotFound (name : String) (folder : GFolder) : RunError
  | rootFolderMissing (rootFolderId : String) : RunError

/-- Model of `UrlFetchApp` responses: status code, headers, body text. -/
structure HTTPResponse where
  responseCode : Nat
  headers : List (String × String)
  contentText : String

/-- Model of a `SpreadsheetApp` spreadsheet handle: the metadata the source
reads (`getId`, `getName`, `getUrl`). -/
structure SpreadsheetHandle where
  id : String
  name : String
  url : String
deriving DecidableEq

/-- The external-service environment plus the configuration values loaded
from script properties (the source asserts at startup that all four are
non-empty; a run only happens once they are present). -/
structure Env where
  scrapboxSid : String
  scrapboxBaseUrl : String
  scrapboxProjectName : String
  gdriveRootFolderId : String
  fetch : String → String → HTTPResponse
  driveGetFolderById : String → Option GFolder
  spreadsheetOpenById : String → SpreadsheetHandle

/-- The page identifier template literal of `getKPTContents`:
 `月報_${year}${month}` with `year = tod.getFullYear()` and
 `month = tod.getMonth().toString().padStart(2, '0')`. -/
def kptPageName (tod : JSDate) : String :=
  "月報_" ++ natToString tod.getFullYear ++ padStart (natToString tod.getMonth) 2 '0'

/-- Model of `getKPTContents` (src/unnamed/part_000 lines 84-114): build the
page-text URL with `joinPaths`, issue the authenticated fetch (the second
argument of `Env.fetch` is the `Cookie` header value `connect.sid=<sid>`),
throw a fetch error carrying headers, body and status on any non-200
response, and otherwise hand the body to the parser. -/
def getKPTContents (env : Env) (tod : JSDate) : Except RunError KPTContents :=
  match joinPaths [env.scrapboxBaseUrl, "pages", env.scrapboxProjectName,
      kptPageName tod, "text"] with
  | none => .error .unreachableJoin
  | some url =>
    let response := env.fetch url ("connect.sid=" ++ env.scrapboxSid)
    if response.responseCode ≠ 200 then
      .error (.fetchError response.headers response.contentText
        response.responseCode)
    else
      .ok (parseAsKPTContents response.contentText)

/-- One step of the reducer inside `findFolderByPathnames`: keep an
already-missing result missing, otherwise select the first child folder whose
name equals the next path segment exactly. -/
def descendStep (folder : Option GFolder) (pathname : String) : Option GFolder :=
  match folder with
  | none => none
  | some f => f.getFolders.find? fun g => g.getName == pathname

/-- Model of `findFolderByPathnames` (src/unnamed/part_000 lines 137-162):
resolve the root folder by id, descend through the path segments with
`descendStep`, and throw a not-found error carrying the full attempted path
and the root folder id if the descent came up empty.  `DriveApp.getFolderById`
throwing on an unknown id is modelled by the `rootFolderMissing` error. -/
def findFolderByPathnames (pathnames : List String) (rootFolderId : String)
    (driveGetFolderById : String → Option GFolder) : Except RunError GFolder :=
  match driveGetFolderById rootFolderId with
  | none => .error (.rootFolderMissing rootFolderId)
  | some rootFolder =>
    match pathnames.foldl descendStep (some rootFolder) with
    | none => .error (.folderNotFound pathnames rootFolderId)
    | some found => .ok found

/-- Model of `findSpreadsheetByName` (src/unnamed/part_000 lines 164-180):
take the first file with exactly the given name (`[...][0]`), throw a
not-found error carrying the name and the folder if there is none, and open
the spreadsheet by the file's id. -/
def findSpreadsheetByName (name : String) (folder : GFolder)
    (spreadsheetOpenById : String → SpreadsheetHandle) :
    Except RunError SpreadsheetHandle :=
  match (folder.getFilesByName name).head? with
  | none => .error (.fileNotFound name folder)
  | some file => .ok (spreadsheetOpenById file.id)

/-- The folder path `['月次資料', year, month]` of `getMonthlyReportSpreadsheet`,
with `year = tod.getFullYear().toString()` and
`month = tod.getMonth().toString().padStart(2, '0')`. -/
def monthlyReportPathnames (tod : JSDate) : List String :=
  ["月次資料", natToString tod.getFullYear, padStart (natToString tod.getMonth) 2 '0']

/-- The target document name `` `月報_${year}${month}` `` of
`getMonthlyReportSpreadsheet`. -/
def monthlyReportName (tod : JSDate) : String :=
  "月報_" ++ natToString tod.getFullYear ++ padStart (natToString tod.getMonth) 2 '0'

/-- Model of `getMonthlyReportSpreadsheet` (src/unnamed/part_000 lines
182-197): resolve the month folder under the configured root, then the
monthly-report spreadsheet inside it by exact name. -/
def getMonthlyReportSpreadsheet (env : Env) (tod : JSDate) :
    Except RunError SpreadsheetHandle :=
  match findFolderByPathnames (monthlyReportPathnames tod) env.gdriveRootFolderId
      env.driveGetFolderById with
  | .error e => .error e
  | .ok folder =>
    findSpreadsheetByName (monthlyReportName tod) folder env.spreadsheetOpenById

/-- One `Range.setValue` call: target spreadsheet id, cell address, value. -/
structure WriteEvent where
  spreadsheetId : String
  cell : String
  value : String
deriving DecidableEq

/-- The `UpdateMonthlyReportResult` record of the source. -/
structure UpdateMonthlyReportResult where
  succeed : Bool
  kpt : KPTContents
  spreadsheet : SpreadsheetHandle
deriving DecidableEq

/-- Model of `overwriteKPTContents` (src/unnamed/part_000 lines 209-227):
write the four fields into the fixed cells B8, B12, B16, B20 of the target
spreadsheet (appended to the write-event log) and return the confirmation
record. -/
def overwriteKPTContents (kptContents : KPTContents)
    (monthlyReportSheet : SpreadsheetHandle) (log : List WriteEvent) :
    List WriteEvent × UpdateMonthlyReportResult :=
  (log ++
    [⟨monthlyReportSheet.id, "B8", kptContents.keep⟩,
     ⟨monthlyReportSheet.id, "B12", kptContents.problem⟩,
     ⟨monthlyReportSheet.id, "B16", kptContents.try_⟩,
     ⟨monthlyReportSheet.id, "B20", kptContents.other⟩],
   { succeed := true, kpt := kptContents,
     spreadsheet :=
       ⟨monthlyReportSheet.id, monthlyReportSheet.name, monthlyReportSheet.url⟩ })

/-- Model of `main` (src/unnamed/part_000 lines 232-249; spelled `main'` because a Lean `main` must be an `IO` entry point): fetch the KPT page
and locate the monthly-report spreadsheet (via `Promise.all`; a rejection of
either aborts the run before the writer is invoked), then overwrite the four
cells.  The second component is the write-event log, unchanged on failure. -/
def main' (env : Env) (today : JSDate) (log : List WriteEvent) :
    Except RunError UpdateMonthlyReportResult × List WriteEvent :=
  match getKPTContents env today with
  | .error e => (.error e, log)
  | .ok kptContents =>
    match getMonthlyReportSpreadsheet env today with
    | .error e => (.error e, log)
    | .ok monthlyReportSheet =>
      let updated := overwriteKPTContents kptContents monthlyReportSheet log
      (.ok updated.2, updated.1)

/-- Whether an `Except` value is a success. -/
def exceptOk {ε α : Type} : Except ε α → Bool
  | .ok _ => true
  | .error _ => false

/-- Straightforward recursive resolution of a folder path: at each segment,
take the first child folder with exactly that name; fail if there is none.
Stated from the Storage Locator contract, to be compared with the `foldl`
descent of `findFolderByPathnames`. -/
def resolvePath : GFolder → List String → Option GFolder
  | f, [] => some f
  | f, p :: ps =>
    match f.getFolders.find? (fun g => g.getName == p) with
    | none => none
    | some child => resolvePath child ps

/-- A trailing separator, if present, stripped: the left operand's
contribution to a `joinPath` boundary. -/
def dropTrailingSep (s : String) : String :=
  if lastCharIs s.data '/' then String.mk s.data.dropLast else s

/-- A leading separator, if present, stripped: the right operand's
contribution to a `joinPath` boundary. -/
def dropLeadingSep (s : String) : String :=
  if headCharIs s.data '/' then String.mk (s.data.drop 1) else s

/-- Demo page text used to exercise the pipeline on concrete inputs. -/
def demoKptPage : String := "Title\n\n[[Keep]]\nline1\nline2\n\n[[Try]]\ntryline"

/-- Demo Drive tree: 月次資料/2024/04 containing the 月報_202404 spreadsheet. -/
def demoRoot : GFolder :=
  .node "root"
    [.node "月次資料"
      [.node "2024"
        [.node "04" [] [⟨"月報_202404", "file1"⟩]]
        []]
      []]
    []

/-- Demo environment in which every component succeeds. -/
def demoEnv : Env where
  scrapboxSid := "sid"
  scrapboxBaseUrl := "https://sb.example/api"
  scrapboxProjectName := "proj"
  gdriveRootFolderId := "rootId"
  fetch := fun _ _ => ⟨200, [], demoKptPage⟩
  driveGetFolderById := fun i => if i = "rootId" then some demoRoot else none
  spreadsheetOpenById := fun i => ⟨i, "月報_202404", "https://sheets.example/" ++ i⟩

/-- Demo environment whose fetch answers 404. -/
def demo404Env : Env where
  scrapboxSid := "sid"
  scrapboxBaseUrl := "https://sb.example/api"
  scrapboxProjectName := "proj"
  gdriveRootFolderId := "rootId"
  fetch := fun _ _ => ⟨404, [("X-Served", "y")], "not found"⟩
  driveGetFolderById := fun i => if i = "rootId" then some demoRoot else none
  spreadsheetOpenById := fun i => ⟨i, "月報_202404", "https://sheets.example/" ++ i⟩

/-- Demo Drive tree for the missing-segment scenario: the root has a `2024`
child but `2024` has no `05` child. -/
def sampleRoot : GFolder := .node "root" [.node "2024" [] []] []

/-- Demo Drive lookup exposing only `sampleRoot` under id `rootId`. -/
def sampleDrive : String → Option GFolder :=
  fun i => if i = "rootId" then some sampleRoot else none

theorem lastCharIs_decomp : ∀ (l : List Char) (c : Char),
    lastCharIs l c = true → l = l.dropLast ++ [c]
  | [], _, h => by simp [lastCharIs] at h
  | [x], c, h => by
    simp [lastCharIs] at h
    simp [h]
  | x :: y :: rest, c, h => by
    have ih := lastCharIs_decomp (y :: rest) c (by simpa [lastCharIs] using h)
    show x :: y :: rest = (x :: (y :: rest).dropLast) ++ [c]
    rw [List.cons_append]
    exact congrArg (List.cons x) ih

theorem headCharIs_decomp : ∀ (l : List Char) (c : Char),
    headCharIs l c = true → l = c :: l.drop 1
  | [], _, h => by simp [headCharIs] at h
  | x :: xs, c, h => by
    simp [headCharIs] at h
    simp [h]

theorem joinPath_eq0 (lhs rhs : String) (h1 : lastCharIs lhs.data '/' = false)
    (h2 : headCharIs rhs.data '/' = false) :
    joinPath lhs rhs = some (lhs ++ SEPARATOR ++ rhs) := by
  unfold joinPath joinDiscriminant
  rw [h1, h2]
  rfl

theorem joinPath_eq1 (lhs rhs : String) (h1 : lastCharIs lhs.data '/' = true)
    (h2 : headCharIs rhs.data '/' = false) :
    joinPath lhs rhs = some (lhs ++ rhs) := by
  unfold joinPath joinDiscriminant
  rw [h1, h2]
  rfl

theorem joinPath_eq2 (lhs rhs : String) (h1 : lastCharIs lhs.data '/' = false)
    (h2 : headCharIs rhs.data '/' = true) :
    joinPath lhs rhs = some (lhs ++ rhs) := by
  unfold joinPath joinDiscriminant
  rw [h1, h2]
  rfl

theorem joinPath_eq3 (lhs rhs : String) (h1 : lastCharIs lhs.data '/' = true)
    (h2 : headCharIs rhs.data '/' = true) :
    joinPath lhs rhs = some (lhs ++ jsSubstring1 rhs) := by
  unfold joinPath joinDiscriminant
  rw [h1, h2]
  rfl

/-- C2 (counterexample): folding `joinPath` over `["a/", "/b", "c/"]` yields
`"a/b/c/"`, not `"a/b/c"` — the trailing separator of the final segment
survives; and joining `"a/"` with `"//b"` yields `"a//b"`, which carries two
separator characters at the boundary, not exactly one. -/
theorem joinPaths_example_counterexample :
    joinPaths ["a/", "/b", "c/"] = some "a/b/c/" ∧ ("a/b/c/" : String) ≠ "a/b/c" ∧
    joinPath "a/" "//b" = some "a//b" ∧ ("a//b" : String) ≠ "a/b" :=
  ⟨rfl, by decide, rfl, by decide⟩

/-- C2 (amended): `joinPath` concatenates its operands around exactly one
inserted separator after stripping at most one trailing separator from the
left operand and at most one leading separator from the right operand (it
deduplicates a single separator on each side, never more); and folding
`joinPath` left-to-right over `["a/", "/b", "c/"]` yields `"a/b/c/"`, with
the final segment's trailing separator preserved. -/
theorem joinPath_single_boundary :
    (∀ lhs rhs : String,
      joinPath lhs rhs = some (dropTrailingSep lhs ++ SEPARATOR ++ dropLeadingSep rhs)) ∧
    joinPaths ["a/", "/b", "c/"] = some "a/b/c/" := by
  refine ⟨fun lhs rhs => ?_, rfl⟩
  cases h1 : lastCharIs lhs.data '/' <;> cases h2 : headCharIs rhs.data '/'
  · rw [joinPath_eq0 lhs rhs h1 h2]
    unfold dropTrailingSep dropLeadingSep
    rw [h1, h2]
    rfl
  · rw [joinPath_eq2 lhs rhs h1 h2]
    unfold dropTrailingSep dropLeadingSep
    rw [h1, h2]
    refine congrArg some (String.ext ?_)
    simp only [String.data_append, if_neg, Bool.false_eq_true, not_false_iff,
      if_false, if_pos]
    conv_lhs => rw [headCharIs_decomp rhs.data '/' h2]
    simp [SEPARATOR]
  · rw [joinPath_eq1 lhs rhs h1 h2]
    unfold dropTrailingSep dropLeadingSep
    rw [h1, h2]
    refine congrArg some (String.ext ?_)
    simp only [String.data_append]
    conv_lhs => rw [lastCharIs_decomp lhs.data '/' h1]
    simp [SEPARATOR]
  · rw [joinPath_eq3 lhs rhs h1 h2]
    unfold dropTrailingSep dropLeadingSep jsSubstring1
    rw [h1, h2]
    refine congrArg some (String.ext ?_)
    simp only [String.data_append]
    conv_lhs => rw [lastCharIs_decomp lhs.data '/' h1]
    simp [SEPARATOR]

/-- C9: for every pair of strings the `switch` discriminant of `joinPath` is
one of 0, 1, 2, 3, so the `default` branch throwing `Unreachable` is never
executed and `joinPath` is total on strings. -/
theorem joinPath_discriminant_total (lhs rhs : String) :
    (joinDiscriminant lhs rhs = 0 ∨ joinDiscriminant lhs rhs = 1 ∨
      joinDiscriminant lhs rhs = 2 ∨ joinDiscriminant lhs rhs = 3) ∧
    (joinPath lhs rhs).isSome = true := by
  unfold joinPath joinDiscriminant
  cases lastCharIs lhs.data '/' <;> cases headCharIs rhs.data '/' <;> simp

/-- C10: `joinPaths` on a one-element list returns that element unchanged,
whatever leading or trailing separators it carries — `Array.prototype.reduce`
never invokes the callback on a singleton. -/
theorem joinPaths_singleton (s : String) :
    joinPaths [s] = some s ∧ joinPaths ["/a//b/"] = some "/a//b/" :=
  ⟨rfl, rfl⟩

/-- C3: the example page text parses to
keep = two body lines rejoined, try = its single body line, and empty
problem and other fields. -/
theorem parseAsKPTContents_example :
    parseAsKPTContents "Title\n\n[[Keep]]\nline1\nline2\n\n[[Try]]\ntryline" =
      { keep := "line1\nline2", try_ := "tryline", problem := "", other := "" } :=
  rfl

/-- C4: the remote page identifier and the storage lookup agree, both use the
zero-padded stringified ZERO-BASED month index, the folder path ends with the
year and that padded month, and for May 2024 (month index 4) the identifier is
`月報_202404`, different from the calendar-month variant `月報_202405`. -/
theorem monthKey_zero_based (tod : JSDate) :
    kptPageName tod = monthlyReportName tod ∧
    monthlyReportName tod =
      "月報_" ++ natToString tod.getFullYear ++
        padStart (natToString tod.getMonth) 2 '0' ∧
    monthlyReportPathnames tod =
      ["月次資料", natToString tod.getFullYear,
        padStart (natToString tod.getMonth) 2 '0'] ∧
    (monthlyReportPathnames tod).drop 1 =
      [natToString tod.getFullYear, padStart (natToString tod.getMonth) 2 '0'] ∧
    kptPageName ⟨2024, 4⟩ = "月報_202404" ∧
    monthlyReportName ⟨2024, 4⟩ ≠
      "月報_" ++ natToString 2024 ++ padStart (natToString (4 + 1)) 2 '0' :=
  ⟨rfl, rfl, rfl, rfl, by decide, by decide⟩

theorem parseChunk_eq (kpt : KPTContents) (chunk : String) :
    parseChunk kpt chunk =
      match chunkKind chunk with
      | none => kpt
      | some k => kpt.set k (chunkBody chunk) := by
  unfold parseChunk chunkKind chunkBody
  cases hs : jsSplit chunk "\n" with
  | nil => rfl
  | cons kindLine rest =>
    show (match matchSectionKind kindLine with
        | none => kpt
        | some kind =>
          if kind = "" then kpt
          else if kptContentsKinds.contains kind then kpt.set kind (jsJoin "\n" rest)
          else kpt) =
      (match (match matchSectionKind kindLine with
        | none => (none : Option String)
        | some kind =>
          if kind = "" then none
          else if kptContentsKinds.contains kind then some kind
          else none) with
        | none => kpt
        | some k => kpt.set k (jsJoin "\n" rest))
    cases hm : matchSectionKind kindLine with
    | none => rfl
    | some kind =>
      show (if kind = "" then kpt
            else if kptContentsKinds.contains kind then kpt.set kind (jsJoin "\n" rest)
            else kpt) =
        (match (if kind = "" then (none : Option String)
                else if kptContentsKinds.contains kind then some kind
                else none) with
          | none => kpt
          | some k => kpt.set k (jsJoin "\n" rest))
      by_cases hk : kind = ""
      · simp [hk]
      · rw [if_neg hk, if_neg hk]
        cases hc : kptContentsKinds.contains kind <;> rfl

theorem chunkKind_contains {chunk k : String} (h : chunkKind chunk = some k) :
    kptContentsKinds.contains k = true := by
  unfold chunkKind at h
  split at h
  · exact absurd h (by simp)
  · split at h
    · exact absurd h (by simp)
    · split at h
      · exact absurd h (by simp)
      · split at h
        next hc =>
          obtain rfl := Option.some.inj h
          exact hc
        next hc => exact absurd h (by simp)

theorem contains_kinds_cases {k : String} (h : kptContentsKinds.contains k = true) :
    k = "try" ∨ k = "problem" ∨ k = "keep" ∨ k = "other" := by
  have h' : k ∈ kptContentsKinds := by
    simpa [kptContentsKinds] using h
  simpa [kptContentsKinds] using h'

theorem get_set_same (kpt : KPTContents) (k v : String)
    (h : kptContentsKinds.contains k = true) : (kpt.set k v).get k = v := by
  rcases contains_kinds_cases h with h1 | h1 | h1 | h1 <;> subst h1 <;> rfl

theorem get_set_ne (kpt : KPTContents) (k k' v : String) (hne : k ≠ k')
    (h : kptContentsKinds.contains k' = true) :
    (kpt.set k' v).get k = kpt.get k := by
  rcases contains_kinds_cases h with h1 | h1 | h1 | h1 <;> subst h1 <;>
    simp [KPTContents.get, KPTContents.set, hne]

theorem foldl_parseChunk_const (l : List String) (kpt : KPTContents)
    (h : ∀ c ∈ l, chunkKind c = none) : l.foldl parseChunk kpt = kpt := by
  induction l generalizing kpt with
  | nil => rfl
  | cons c t ih =>
    have hc : chunkKind c = none := h c (List.mem_cons_self c t)
    simp only [List.foldl_cons, parseChunk_eq, hc]
    exact ih kpt fun x hx => h x (List.mem_cons_of_mem c hx)

theorem foldl_parseChunk_get (l : List String) (kpt : KPTContents) (k : String)
    (h : ∀ c ∈ l, chunkKind c ≠ some k) :
    (l.foldl parseChunk kpt).get k = kpt.get k := by
  induction l generalizing kpt with
  | nil => rfl
  | cons c t ih =>
    rw [List.foldl_cons, ih (parseChunk kpt c) fun x hx => h x (List.mem_cons_of_mem c hx)]
    rw [parseChunk_eq]
    cases hc : chunkKind c with
    | none => rfl
    | some k' =>
      have hk : k ≠ k' := fun he => h c (List.mem_cons_self c t) (by rw [hc, he])
      exact get_set_ne kpt k k' (chunkBody c) hk (chunkKind_contains hc)

theorem parse_eq_foldl (contents : String) :
    parseAsKPTContents contents =
      (chunksOf contents).foldl parseChunk emptyKPTContents := by
  unfold parseAsKPTContents chunksOf
  cases hs : jsSplit contents "\n\n" <;> rfl

/-- C5: the parser is total (it returns a complete four-field `KPTContents`
for every input), and whenever no chunk of the input carries a recognized
bracketed section label, every field of the result is the empty string. -/
theorem parseAsKPTContents_no_labels_empty (contents : String)
    (h : ∀ chunk ∈ chunksOf contents, chunkKind chunk = none) :
    parseAsKPTContents contents = emptyKPTContents := by
  rw [parse_eq_foldl]
  exact foldl_parseChunk_const _ _ h

/-- C5 witness: a text whose chunks carry no recognized label (one plain
chunk, one chunk with an unrecognized label) parses to the all-empty record. -/
theorem parseAsKPTContents_no_labels_empty_witness :
    parseAsKPTContents "Title\n\nplain text chunk\n\n[[Nope]]\nx" =
      emptyKPTContents :=
  parseAsKPTContents_no_labels_empty _ (by decide)

/-- C6: if a recognized kind `k` heads the chunk `c` and also heads an
earlier chunk, and no later chunk carries kind `k`, then the parsed field for
`k` is exactly the rejoined body of `c` — the last occurrence wins, with no
error and no merging. -/
theorem parse_last_wins (contents k c : String) (ls le : List String)
    (hsplit : chunksOf contents = ls ++ c :: le)
    (_hdup : ∃ c0 ∈ ls, chunkKind c0 = some k)
    (hc : chunkKind c = some k)
    (hafter : ∀ c1 ∈ le, chunkKind c1 ≠ some k) :
    (parseAsKPTContents contents).get k = chunkBody c := by
  rw [parse_eq_foldl, hsplit, List.foldl_append, List.foldl_cons]
  rw [foldl_parseChunk_get le _ k hafter]
  rw [parseChunk_eq, hc]
  exact get_set_same _ k _ (chunkKind_contains hc)

/-- C6 witness: with `[[Keep]]` heading the first chunk and `[[keep]]`
heading the second, the parsed keep field is the second chunk's body. -/
theorem parse_last_wins_witness :
    (parseAsKPTContents "T\n\n[[Keep]]\na\n\n[[keep]]\nb").get "keep" = "b" := by
  have h := parse_last_wins "T\n\n[[Keep]]\na\n\n[[keep]]\nb" "keep" "[[keep]]\nb"
    ["[[Keep]]\na"] [] (by decide) ⟨"[[Keep]]\na", by decide, by decide⟩
    (by decide) (by decide)
  exact h.trans (by decide)

theorem foldl_descend_none (ps : List String) :
    ps.foldl descendStep none = none := by
  induction ps with
  | nil => rfl
  | cons p t ih =>
    rw [List.foldl_cons]
    exact ih

theorem foldl_descend (ps : List String) (f : GFolder) :
    ps.foldl descendStep (some f) = resolvePath f ps := by
  induction ps generalizing f with
  | nil => rfl
  | cons p t ih =>
    rw [List.foldl_cons]
    show t.foldl descendStep (f.getFolders.find? fun g => g.getName == p) = _
    cases hf : f.getFolders.find? fun g => g.getName == p with
    | none =>
      rw [foldl_descend_none]
      simp only [resolvePath, hf]
    | some child =>
      rw [ih child]
      simp only [resolvePath, hf]

/-- C7: with the root folder resolved, `findFolderByPathnames` behaves as the
straightforward first-exact-match descent `resolvePath`: it returns the folder
the descent reaches, and if any segment has no exactly-matching child it
throws a not-found error carrying the full attempted path sequence and the
root folder identifier (it never creates folders — it is a pure read). -/
theorem findFolderByPathnames_spec (pathnames : List String) (rootFolderId : String)
    (drive : String → Option GFolder) (rootFolder : GFolder)
    (h : drive rootFolderId = some rootFolder) :
    findFolderByPathnames pathnames rootFolderId drive =
      match resolvePath rootFolder pathnames with
      | some found => .ok found
      | none => .error (.folderNotFound pathnames rootFolderId) := by
  unfold findFolderByPathnames
  rw [h]
  show (match List.foldl descendStep (some rootFolder) pathnames with
    | none => Except.error (RunError.folderNotFound pathnames rootFolderId)
    | some found => Except.ok found) = _
  rw [foldl_descend]
  cases resolvePath rootFolder pathnames <;> rfl

/-- C7 witness: resolving `["2024", "05"]` in a tree that only has `2024`
fails with the full attempted path and the root id in the error payload. -/
theorem findFolderByPathnames_spec_witness :
    findFolderByPathnames ["2024", "05"] "rootId" sampleDrive =
      .error (.folderNotFound ["2024", "05"] "rootId") := by
  rw [findFolderByPathnames_spec ["2024", "05"] "rootId" sampleDrive sampleRoot rfl]
  rfl

/-- C8: `getKPTContents` succeeds exactly when the response status is 200, in
which case the response body is handed to the KPT parser; on any non-200
status it throws an error carrying the response headers, body and status code
(a single fetch, no retry). -/
theorem getKPTContents_status (env : Env) (tod : JSDate) (url : String)
    (h : joinPaths [env.scrapboxBaseUrl, "pages", env.scrapboxProjectName,
        kptPageName tod, "text"] = some url) :
    (exceptOk (getKPTContents env tod) = true ↔
      (env.fetch url ("connect.sid=" ++ env.scrapboxSid)).responseCode = 200) ∧
    ((env.fetch url ("connect.sid=" ++ env.scrapboxSid)).responseCode = 200 →
      getKPTContents env tod =
        .ok (parseAsKPTContents
          (env.fetch url ("connect.sid=" ++ env.scrapboxSid)).contentText)) ∧
    ((env.fetch url ("connect.sid=" ++ env.scrapboxSid)).responseCode ≠ 200 →
      getKPTContents env tod =
        .error (.fetchError
          (env.fetch url ("connect.sid=" ++ env.scrapboxSid)).headers
          (env.fetch url ("connect.sid=" ++ env.scrapboxSid)).contentText
          (env.fetch url ("connect.sid=" ++ env.scrapboxSid)).responseCode)) := by
  unfold getKPTContents
  rw [h]
  by_cases hr :
      (env.fetch url ("connect.sid=" ++ env.scrapboxSid)).responseCode = 200
  · simp [hr, exceptOk]
  · simp [hr, exceptOk]

/-- C8 witness: in the demo environment whose fetch answers 404, the run
throws a fetch error carrying the 404 response's headers, body and status. -/
theorem getKPTContents_status_witness :
    getKPTContents demo404Env ⟨2024, 4⟩ =
      .error (.fetchError [("X-Served", "y")] "not found" 404) :=
  (getKPTContents_status demo404Env ⟨2024, 4⟩
    "https://sb.example/api/pages/proj/月報_202404/text" rfl).2.2 (by decide)

/-- C1: if either the page fetch or the spreadsheet lookup fails, the run
aborts with that error and the write log is untouched (the writer is never
invoked); when both succeed, the run writes exactly the four cells B8, B12,
B16, B20 with the parsed keep/problem/try/other texts — there is no partial
state. -/
theorem main_all_or_nothing (env : Env) (today : JSDate) (log : List WriteEvent) :
    (exceptOk (main' env today log).1 = false → (main' env today log).2 = log) ∧
    ((exceptOk (getKPTContents env today) = false ∨
      exceptOk (getMonthlyReportSpreadsheet env today) = false) →
      exceptOk (main' env today log).1 = false) ∧
    (∀ kpt sheet, getKPTContents env today = .ok kpt →
      getMonthlyReportSpreadsheet env today = .ok sheet →
      (main' env today log).1 =
        .ok { succeed := true, kpt := kpt,
              spreadsheet := ⟨sheet.id, sheet.name, sheet.url⟩ } ∧
      (main' env today log).2 = log ++
        [⟨sheet.id, "B8", kpt.keep⟩, ⟨sheet.id, "B12", kpt.problem⟩,
         ⟨sheet.id, "B16", kpt.try_⟩, ⟨sheet.id, "B20", kpt.other⟩]) := by
  unfold main'
  cases hk : getKPTContents env today with
  | error e =>
    exact ⟨fun _ => rfl, fun _ => rfl,
      fun kpt sheet hko _ => Except.noConfusion hko⟩
  | ok kpt0 =>
    cases hs : getMonthlyReportSpreadsheet env today with
    | error e =>
      exact ⟨fun _ => rfl, fun _ => rfl,
        fun kpt sheet _ hso => Except.noConfusion hso⟩
    | ok sheet0 =>
      refine ⟨fun hfalse => ?_, fun hfalse => ?_, fun kpt sheet hko hso => ?_⟩
      · exact absurd hfalse (by simp [exceptOk])
      · rcases hfalse with hfalse | hfalse <;> simp [exceptOk] at hfalse
      · injection hko with h1
        injection hso with h2
        subst h1
        subst h2
        exact ⟨rfl, rfl⟩

/-- C1 witness: in the all-success demo environment the run returns the
confirmation record and the log holds exactly the four cell writes. -/
theorem main_all_or_nothing_witness :
    (main' demoEnv ⟨2024, 4⟩ []).1 =
      .ok { succeed := true, kpt := ⟨"tryline", "", "line1\nline2", ""⟩,
            spreadsheet := ⟨"file1", "月報_202404", "https://sheets.example/file1"⟩ } ∧
    (main' demoEnv ⟨2024, 4⟩ []).2 =
      [⟨"file1", "B8", "line1\nline2"⟩, ⟨"file1", "B12", ""⟩,
       ⟨"file1", "B16", "tryline"⟩, ⟨"file1", "B20", ""⟩] := by
  have h := (main_all_or_nothing demoEnv ⟨2024, 4⟩ []).2.2
    ⟨"tryline", "", "line1\nline2", ""⟩
    ⟨"file1", "月報_202404", "https://sheets.example/file1"⟩ rfl rfl
  exact ⟨h.1, h.2.trans (List.nil_append _)⟩
